import Mathlib

/-!
A verification development for the CLI to-do list tool in `todo.py`.

The program is a single-file Python script.  We give a shallow embedding of
its data model and operations:

* file persistence (`load_tasks` / `save_tasks`) is modelled over an abstract
  `FileContent` that records the outcome of JSON decoding; the Python `json`
  standard library itself is not part of the program, so we represent a file
  by what `json.load` would yield on it (`malformed` for content raising
  `JSONDecodeError`, `wellFormed v canonical` for content that decodes to the
  value `v`; `canonical` records whether the text is exactly the
  `json.dump(v, indent=4)` serialization, which is deterministic);
* Python exceptions are modelled with `Except PyErr`;
* the task handlers (`add_task`, `update_deadline`, ...) are modelled as pure
  functions on the decoded task list, returning the resulting list together
  with flags recording whether the handler loaded or saved the store and the
  lines it printed;
* the `__main__` dispatch is modelled by `runBody` / `runMain`, including the
  fact that the names `complete_task` and `delete_task` are referenced by the
  dispatch but never defined at module scope.
-/

/-- A JSON value, as produced by `json.load`. -/
inductive Json where
  | null
  | bool (b : Bool)
  | int (n : Int)
  | str (s : String)
  | arr (elems : List Json)
  | obj (fields : List (String × Json))

/-- The persisted file, abstracted by its JSON decoding outcome.
`malformed` stands for any content on which `json.load` raises
`JSONDecodeError`; `wellFormed v canonical` stands for content decoding to
`v`, with `canonical = true` when the text is exactly the deterministic
`json.dump(v, indent=4)` output that `save_tasks` writes. -/
inductive FileContent where
  | malformed
  | wellFormed (v : Json) (canonical : Bool)

/-- Python exceptions that the modelled code can raise. -/
inductive PyErr where
  | nameError (n : String)
  | valueError (msg : String)
  | decodeError
  | osError (msg : String)
deriving DecidableEq

/-- Outcome of `json.load` on the file: the decoded value, or a
`JSONDecodeError`. -/
def jsonLoad : FileContent → Except PyErr Json
  | .malformed => .error .decodeError
  | .wellFormed v _ => .ok v

/-- `load_tasks` from `todo.py`: `json.load` inside
`try ... except json.JSONDecodeError: return []`.  Only the decode error is
caught; any other exception would propagate. -/
def load_tasks (c : FileContent) : Except PyErr Json :=
  match jsonLoad c with
  | .ok v => .ok v
  | .error .decodeError => .ok (.arr [])
  | .error e => .error e

/-- The file content written by a successful `json.dump(tasks, f, indent=4)`:
well formed and in canonical serialized form. -/
def jsonDump (v : Json) : FileContent := .wellFormed v true

/-- `save_tasks` from `todo.py`: the whole body is wrapped in
`try ... except Exception as e: logging.error(...)`, so whatever the write
outcome, the function returns normally (Python returns `None`).
`w` is the outcome of the file write. -/
def save_tasks (tasks : Json) (w : Except PyErr Unit) : Except PyErr Unit :=
  match w with
  | .ok _ => .ok ()
  | .error _ => .ok ()

/-- The composite `save(load())` on the persisted file, with the write
succeeding: load the file (malformed content resets to the empty list) and
write the loaded value back in canonical form. -/
def save_load (c : FileContent) : FileContent :=
  match load_tasks c with
  | .ok v => jsonDump v
  | .error _ => c

/-- Field lookup in a decoded JSON object. -/
def jsonLookup (k : String) : List (String × Json) → Option Json
  | [] => none
  | (k₂, v) :: fs => if k₂ = k then some v else jsonLookup k fs

/-- Whether a decoded JSON value has the shape of one task record:
an object with integer `id`, string `description`, boolean `completed` and
string-or-null `deadline`. -/
def isTaskRecord : Json → Bool
  | .obj fs =>
      (match jsonLookup "id" fs with | some (.int _) => true | _ => false) &&
      (match jsonLookup "description" fs with | some (.str _) => true | _ => false) &&
      (match jsonLookup "completed" fs with | some (.bool _) => true | _ => false) &&
      (match jsonLookup "deadline" fs with
       | some (.str _) => true | some .null => true | _ => false)
  | _ => false

/-- Whether a decoded JSON value has the shape of a task sequence. -/
def isTaskSequence : Json → Bool
  | .arr elems => elems.all isTaskRecord
  | _ => false

/-! ## Date validation

`validate_date` calls `datetime.strptime(date_str, "%Y-%m-%d")`.  CPython
matches the format with the regular expression
`\d\d\d\d` for `%Y`, `1[0-2]|0[1-9]|[1-9]` for `%m` and
`3[01]|[12]\d|0[1-9]|[1-9]` for `%d`, requires the whole string to be
consumed, and then builds a `datetime`, which checks `1 <= year` and that the
day exists in the given month (with leap years).  We transcribe exactly that.
(Non-ASCII Unicode digits, which CPython would also accept, are not
modelled.)  Alternation is tried in the given order; committing to the first
matching alternative is faithful here because whenever backtracking to a
shorter alternative occurs, the following literal `-` or end-of-input check
fails on the leftover digit as well. -/

/-- Numeric value of an ASCII digit. -/
def digitVal (c : Char) : Nat := c.toNat - 48

/-- Leap-year rule used by `datetime`. -/
def isLeapYear (y : Nat) : Bool :=
  y % 4 = 0 && (y % 100 ≠ 0 || y % 400 = 0)

/-- Number of days of month `m` in year `y`, as `datetime` checks it. -/
def daysInMonth (y m : Nat) : Nat :=
  if m = 2 then (if isLeapYear y then 29 else 28)
  else if m = 4 ∨ m = 6 ∨ m = 9 ∨ m = 11 then 30
  else 31

/-- `%Y`: exactly four ASCII digits. -/
def parseYear : List Char → Option (Nat × List Char)
  | c₁ :: c₂ :: c₃ :: c₄ :: rest =>
      if c₁.isDigit && c₂.isDigit && c₃.isDigit && c₄.isDigit then
        some (digitVal c₁ * 1000 + digitVal c₂ * 100 + digitVal c₃ * 10 + digitVal c₄, rest)
      else none
  | _ => none

/-- `%m`: the regex `1[0-2]|0[1-9]|[1-9]`, alternatives in order. -/
def parseMonth : List Char → Option (Nat × List Char)
  | c₁ :: c₂ :: rest =>
      if c₁ = '1' && ('0' ≤ c₂ && c₂ ≤ '2') then some (10 + digitVal c₂, rest)
      else if c₁ = '0' && ('1' ≤ c₂ && c₂ ≤ '9') then some (digitVal c₂, rest)
      else if '1' ≤ c₁ && c₁ ≤ '9' then some (digitVal c₁, c₂ :: rest)
      else none
  | [c₁] =>
      if '1' ≤ c₁ && c₁ ≤ '9' then some (digitVal c₁, []) else none
  | [] => none

/-- `%d`: the regex `3[01]|[12]\d|0[1-9]|[1-9]`, alternatives in order. -/
def parseDay : List Char → Option (Nat × List Char)
  | c₁ :: c₂ :: rest =>
      if c₁ = '3' && ('0' ≤ c₂ && c₂ ≤ '1') then some (30 + digitVal c₂, rest)
      else if ('1' ≤ c₁ && c₁ ≤ '2') && c₂.isDigit then
        some (digitVal c₁ * 10 + digitVal c₂, rest)
      else if c₁ = '0' && ('1' ≤ c₂ && c₂ ≤ '9') then some (digitVal c₂, rest)
      else if '1' ≤ c₁ && c₁ ≤ '9' then some (digitVal c₁, c₂ :: rest)
      else none
  | [c₁] =>
      if '1' ≤ c₁ && c₁ ≤ '9' then some (digitVal c₁, []) else none
  | [] => none

/-- `validate_date` from `todo.py`: `strptime(date_str, "%Y-%m-%d")` must
consume the whole string and yield a constructible `datetime`. -/
def validate_date (s : String) : Bool :=
  match parseYear s.data with
  | some (y, '-' :: r₁) =>
      match parseMonth r₁ with
      | some (m, '-' :: r₂) =>
          match parseDay r₂ with
          | some (d, []) => 1 ≤ y && d ≤ daysInMonth y m
          | _ => false
      | _ => false
  | _ => false

example : validate_date "2025-02-01" = true := by decide
example : validate_date "2025-13-01" = false := by decide
example : validate_date "2025-02-29" = false := by decide
example : validate_date "2024-02-29" = true := by decide
example : validate_date "2025-2-1" = true := by decide
example : validate_date "2025-02-01x" = false := by decide
example : validate_date "0000-02-01" = false := by decide
example : validate_date "" = false := by decide

/-! ## Task records and handlers

Handlers operate on the decoded task list.  `HandlerResult` records the task
list the handler left behind (the list passed to `save_tasks` when `saved`
is true, the untouched input otherwise), whether the handler called
`load_tasks` and `save_tasks`, and the lines it printed. -/

namespace Todo

/-- One task record, as the handlers read and write it. -/
structure Task where
  id : Int
  description : String
  completed : Bool
  deadline : Option String
deriving DecidableEq

/-- Result of running one handler on the decoded task list. -/
structure HandlerResult where
  tasks : List Task
  loaded : Bool
  saved : Bool
  output : List String
deriving DecidableEq

/-- Python `str.strip()` with no argument: remove leading and trailing
whitespace (ASCII whitespace; the further Unicode whitespace Python strips
is not modelled). -/
def pyStrip (s : String) : String :=
  String.mk (((s.data.dropWhile Char.isWhitespace).reverse.dropWhile Char.isWhitespace).reverse)

/-- The fields of a task other than its id, used to state that an operation
keeps the remaining tasks (order and content) unchanged apart from ids. -/
def taskData (t : Task) : String × Bool × Option String :=
  (t.description, t.completed, t.deadline)

/-- Python truthiness of the optional `deadline` argument: `None` and the
empty string are falsy. -/
def strTruthy : Option String → Bool
  | none => false
  | some s => s ≠ ""

def addEmptyDescMsg : String := "Error: Task description cannot be empty."

def invalidDateMsg : String := "❌ Error: Invalid date format. Please use YYYY-MM-DD."

/-- The f-string printed on a successful add (untrimmed deadline, as in the
source). -/
def addSuccessMsg (description : String) (deadline : Option String) : String :=
  "✅ Task added: " ++ pyStrip description ++ " " ++
    (if strTruthy deadline then "(Deadline: " ++ deadline.getD "" ++ ")" else "")

/-- `add_task` from `todo.py`: reject an empty (after strip) description,
then a present-and-invalid deadline, before any load; otherwise append a new
task with id `len(tasks) + 1` and save. -/
def add_task (description : String) (deadline : Option String)
    (tasks : List Task) : HandlerResult :=
  if pyStrip description = "" then
    { tasks := tasks, loaded := false, saved := false, output := [addEmptyDescMsg] }
  else if strTruthy deadline && !validate_date (deadline.getD "") then
    { tasks := tasks, loaded := false, saved := false, output := [invalidDateMsg] }
  else
    let newTask : Task :=
      { id := (tasks.length : Int) + 1
        description := pyStrip description
        completed := false
        deadline := if strTruthy deadline then some (pyStrip (deadline.getD "")) else none }
    { tasks := tasks ++ [newTask], loaded := true, saved := true,
      output := [addSuccessMsg description deadline] }

def emptyListMsg : String := "No tasks available. 🗒️ Start by adding one using the add command."

/-- One line of `list_tasks` output. -/
def taskLine (t : Task) : String :=
  "ID: " ++ toString t.id ++ " | [" ++ (if t.completed then "✓" else "✗") ++ "] "
    ++ t.description ++ " "
    ++ (match t.deadline with
        | some d => "(Deadline: " ++ d ++ ")"
        | none => "")

/-- `list_tasks` from `todo.py` (read-only). -/
def list_tasks (tasks : List Task) : HandlerResult :=
  if tasks = [] then
    { tasks := tasks, loaded := true, saved := false, output := [emptyListMsg] }
  else
    { tasks := tasks, loaded := true, saved := false,
      output := ["🗒️ Your Tasks:"] ++ tasks.map taskLine }

def completeNotFoundMsg : String := "⚠️ Task not found."

def alreadyCompletedMsg : String := "⚠️ Task is already completed."

def completeSuccessMsg : String := "✅ Task marked as completed."

/-- Scan of the task list by `complete_task`: first match on the id decides
the outcome (already completed: warn, no save; incomplete: set the flag and
save; no match: warn, no save). -/
def completeScan (task_id : Int) : List Task → List Task × Bool × List String
  | [] => ([], false, [completeNotFoundMsg])
  | t :: ts =>
      if t.id = task_id then
        if t.completed then (t :: ts, false, [alreadyCompletedMsg])
        else ({ t with completed := true } :: ts, true, [completeSuccessMsg])
      else
        let r := completeScan task_id ts
        (t :: r.1, r.2.1, r.2.2)

/-- Modelled from the spec: `complete_task` is called by the dispatch in
`todo.py` but never defined there; this definition follows section 4.4 of
the specification (scan for the id; already completed: warning and no save;
incomplete: set `completed` and save; not found: warning and no save).  The
exact wording of the three messages is not fixed by the specification, only
that the repeat-complete warning differs from the success message. -/
def complete_task (task_id : Int) (tasks : List Task) : HandlerResult :=
  let r := completeScan task_id tasks
  { tasks := r.1, loaded := true, saved := r.2.1, output := r.2.2 }

def deleteNotFoundMsg : String := "⚠️ Task not found."

def deleteSuccessMsg : String := "✅ Task deleted."

/-- Reassign ids `n, n+1, ...` to the tasks of a list in order. -/
def renumberFrom (n : Int) : List Task → List Task
  | [] => []
  | t :: ts => { t with id := n } :: renumberFrom (n + 1) ts

/-- Modelled from the spec: `delete_task` is called by the dispatch in
`todo.py` but never defined there; this definition follows section 4.5 of
the specification (filter out the matching entry; if the length is unchanged
report not-found without saving, otherwise renumber the remaining entries to
1..N in their current order and save). -/
def delete_task (task_id : Int) (tasks : List Task) : HandlerResult :=
  if (tasks.filter (fun t => t.id ≠ task_id)).length = tasks.length then
    { tasks := tasks, loaded := true, saved := false, output := [deleteNotFoundMsg] }
  else
    { tasks := renumberFrom 1 (tasks.filter (fun t => t.id ≠ task_id)),
      loaded := true, saved := true, output := [deleteSuccessMsg] }

def updateNotFoundMsg (task_id : Int) : String :=
  "⚠️ Task ID " ++ toString task_id ++ " not found."

def updateSuccessMsg (task_id : Int) (deadline : String) : String :=
  "✅ Deadline updated for Task " ++ toString task_id ++ ": " ++ deadline

/-- Scan of the task list by `update_deadline`: the loop overwrites the
deadline of the first match, saves and returns; falling through the loop
reports not-found. -/
def updateScan (task_id : Int) (deadline : String) :
    List Task → List Task × Bool × List String
  | [] => ([], false, [updateNotFoundMsg task_id])
  | t :: ts =>
      if t.id = task_id then
        ({ t with deadline := some deadline } :: ts, true,
          [updateSuccessMsg task_id deadline])
      else
        let r := updateScan task_id deadline ts
        (t :: r.1, r.2.1, r.2.2)

/-- `update_deadline` from `todo.py`: validate the date before any load;
then scan for the id, overwrite the deadline of the match and save, or
report not-found.  The id is modelled as the integer `int(task_id)`. -/
def update_deadline (task_id : Int) (deadline : String)
    (tasks : List Task) : HandlerResult :=
  if !validate_date deadline then
    { tasks := tasks, loaded := false, saved := false, output := [invalidDateMsg] }
  else
    let r := updateScan task_id deadline tasks
    { tasks := r.1, loaded := true, saved := r.2.1, output := r.2.2 }


/-! ## The command dispatch

The `__main__` block of `todo.py` wraps the whole dispatch in
`try ... except ValueError ... except Exception`.  The names bound at module
scope of `todo.py` are the five imports plus `TODO_FILE` and the seven
defined functions; `complete_task` and `delete_task` are *not* among them,
so the `complete` and `delete` branches raise `NameError` when they try to
call them.  `runBody` returns the handler result and the exit code, or the
exception that escaped the dispatch; every raising path of the program
raises before any `save_tasks` call, so on an exception the persisted state
is the untouched input. -/

/-- The names bound at module scope in `todo.py` (imports, the constant and
the function definitions).  `complete_task` and `delete_task` are absent. -/
def moduleNames : List String :=
  ["sys", "json", "logging", "Path", "datetime", "TODO_FILE",
   "load_tasks", "save_tasks", "validate_date", "add_task", "list_tasks",
   "update_deadline", "print_help"]

/-- Resolving a global name: a name not bound at module scope (nor a
builtin) raises `NameError`. -/
def lookupName (n : String) : Except PyErr Unit :=
  if n ∈ moduleNames then .ok () else .error (.nameError n)

/-- Numeric value of a list of ASCII digits. -/
def digitsVal (l : List Char) : Nat :=
  l.foldl (fun acc c => acc * 10 + digitVal c) 0

/-- Python `int(s)` on a string: optional surrounding whitespace, optional
sign, then at least one ASCII digit; otherwise `ValueError`.  (Underscore
digit grouping and non-ASCII digits are not modelled.) -/
def pyInt (s : String) : Except PyErr Int :=
  let t := pyStrip s
  let signDigits : Int × List Char :=
    match t.data with
    | '-' :: rest => (-1, rest)
    | '+' :: rest => (1, rest)
    | l => (1, l)
  if signDigits.2 ≠ [] ∧ signDigits.2.all Char.isDigit then
    .ok (signDigits.1 * Int.ofNat (digitsVal signDigits.2))
  else
    .error (.valueError ("invalid literal for int with base 10: " ++ s))

/-- The loop of `update_deadline` as called from the dispatch with the raw
string id: `int(task_id)` is evaluated afresh inside the loop body, so a
non-numeric id only raises once the loop reaches its first iteration. -/
def updateScanStr (task_id : String) (deadline : String) :
    List Task → Except PyErr (List Task × Bool × List String)
  | [] => .ok ([], false, ["⚠️ Task ID " ++ task_id ++ " not found."])
  | t :: ts =>
      match pyInt task_id with
      | .error e => .error e
      | .ok k =>
          if t.id = k then
            .ok ({ t with deadline := some deadline } :: ts, true,
              ["✅ Deadline updated for Task " ++ task_id ++ ": " ++ deadline])
          else
            match updateScanStr task_id deadline ts with
            | .error e => .error e
            | .ok r => .ok (t :: r.1, r.2.1, r.2.2)

/-- `update_deadline` as called from the dispatch, on the raw string id. -/
def update_deadline_cli (task_id : String) (deadline : String)
    (tasks : List Task) : Except PyErr HandlerResult :=
  if !validate_date deadline then
    .ok { tasks := tasks, loaded := false, saved := false, output := [invalidDateMsg] }
  else
    match updateScanStr task_id deadline tasks with
    | .error e => .error e
    | .ok r => .ok { tasks := r.1, loaded := true, saved := r.2.1, output := r.2.2 }

/-- The usage text printed by `print_help` (content irrelevant to every
claim; abbreviated to its first line). -/
def helpText : String := "✅ CLI To-Do List Tool with Deadlines"

/-- Python `str.lower()` (ASCII case folding; locale-independent, as in
CPython for ASCII command words). -/
def pyLower (s : String) : String := String.mk (s.data.map Char.toLower)

/-- A handler result that leaves the store untouched and prints `out`. -/
def noopResult (tasks : List Task) (out : List String) : HandlerResult :=
  { tasks := tasks, loaded := false, saved := false, output := out }

/-- The dispatch inside the `try` of the `__main__` block, on the decoded
task list: selects the handler from `sys.argv` and runs it.  The `complete`
and `delete` branches resolve the undefined names `complete_task` and
`delete_task`; the `.ok` continuations after those lookups are unreachable.
The missing-argument `sys.exit(1)` path is returned as exit code 1
(`SystemExit` is not an `Exception`, so it is not caught below). -/
def runBody (argv : List String) (tasks : List Task) :
    Except PyErr (HandlerResult × Nat) :=
  if argv.length < 2 then
    .ok (noopResult tasks [helpText], 1)
  else
    let command := pyLower (argv.getD 1 "")
    if command = "add" then
      if argv.length < 3 then
        .ok (noopResult tasks ["❌ Error: Task description required."], 0)
      else
        let deadline := if argv.length > 3 then some (argv.getD 3 "") else none
        .ok (add_task (argv.getD 2 "") deadline tasks, 0)
    else if command = "list" then
      .ok (list_tasks tasks, 0)
    else if command = "complete" then
      if argv.length < 3 then
        .ok (noopResult tasks ["❌ Error: Task ID required."], 0)
      else
        match lookupName "complete_task" with
        | .error e => .error e
        | .ok _ => .ok (noopResult tasks [], 0)
    else if command = "delete" then
      if argv.length < 3 then
        .ok (noopResult tasks ["❌ Error: Task ID required."], 0)
      else
        match lookupName "delete_task" with
        | .error e => .error e
        | .ok _ => .ok (noopResult tasks [], 0)
    else if command = "update-deadline" then
      if argv.length < 4 then
        .ok (noopResult tasks ["❌ Error: Task ID and deadline required."], 0)
      else
        match update_deadline_cli (argv.getD 2 "") (argv.getD 3 "") tasks with
        | .error e => .error e
        | .ok r => .ok (r, 0)
    else if command = "help" then
      .ok (noopResult tasks [helpText], 0)
    else
      .ok (noopResult tasks ["❌ Unknown command: " ++ command, helpText], 0)

/-- The message Python prints for an exception (`str(e)`); for `NameError`
this is the name-is-not-defined text (quotation marks around the name are
elided). -/
def errText : PyErr → String
  | .nameError n => "name " ++ n ++ " is not defined"
  | .valueError m => m
  | .decodeError => "Expecting value"
  | .osError m => m

/-- Observable outcome of one invocation of `python todo.py ...`:
the persisted task list when the process ends, whether a save happened, the
printed lines, the exception caught by the central handlers (if any) and the
exit code. -/
structure MainResult where
  tasks : List Task
  saved : Bool
  output : List String
  caught : Option PyErr
  exitCode : Nat
deriving DecidableEq

/-- The `__main__` block: run the dispatch under
`except ValueError: ...` and `except Exception as e: ...`.  Every raising
path of the dispatch raises before any save, so the persisted list is
returned unchanged when an exception is caught. -/
def runMain (argv : List String) (tasks : List Task) : MainResult :=
  match runBody argv tasks with
  | .ok (r, code) =>
      { tasks := r.tasks, saved := r.saved, output := r.output,
        caught := none, exitCode := code }
  | .error (.valueError m) =>
      { tasks := tasks, saved := false,
        output := ["❌ Error: Task ID must be a valid number."],
        caught := some (.valueError m), exitCode := 0 }
  | .error e =>
      { tasks := tasks, saved := false,
        output := ["❌ Unexpected error occurred: " ++ errText e],
        caught := some e, exitCode := 0 }

end Todo

namespace Todo

/-! ## Claims about the store -/

/-- C9: for every task sequence, `save_tasks` never raises to its caller:
on any write failure the error is only logged, so the caller sees the same
successful (`None`) return as on success and cannot detect the failure. -/
theorem save_tasks_never_raises (tasks : Json) (w : Except PyErr Unit) :
    save_tasks tasks w = .ok () := by
  cases w <;> rfl

/-- C10: for every well-formed persisted file state, `save(load())` applied
twice in succession leaves the file content identical to applying it once. -/
theorem save_load_idempotent (c : FileContent)
    (h : ∃ v b, c = FileContent.wellFormed v b) :
    save_load (save_load c) = save_load c := by
  obtain ⟨v, b, rfl⟩ := h
  rfl

/-- Witness for C10 at a concrete well-formed file. -/
theorem save_load_idempotent_witness :
    (∃ v b, FileContent.wellFormed (Json.arr []) false = FileContent.wellFormed v b) ∧
    save_load (save_load (FileContent.wellFormed (Json.arr []) false)) =
      save_load (FileContent.wellFormed (Json.arr []) false) :=
  ⟨⟨Json.arr [], false, rfl⟩,
   save_load_idempotent (FileContent.wellFormed (Json.arr []) false)
     ⟨Json.arr [], false, rfl⟩⟩

/-- C8 (counterexample to the claim as stated): the file content `5` decodes
as JSON but is not a task sequence; `load_tasks` returns it unchanged rather
than the empty sequence. -/
theorem load_tasks_nonsequence_counterexample :
    isTaskSequence (Json.int 5) = false ∧
    load_tasks (FileContent.wellFormed (Json.int 5) false) = .ok (Json.int 5) ∧
    Json.int 5 ≠ Json.arr [] :=
  ⟨rfl, rfl, fun h => Json.noConfusion h⟩

/-- C8 (amended): `load_tasks` returns the empty sequence exactly on content
that fails to *decode as JSON* (`json.JSONDecodeError`), never propagating
an error to the caller; content that decodes to any JSON value, task
sequence or not, is returned as-is. -/
theorem load_tasks_silent_reset :
    load_tasks FileContent.malformed = .ok (Json.arr []) ∧
    (∀ v b, load_tasks (FileContent.wellFormed v b) = .ok v) ∧
    (∀ c, ∃ v, load_tasks c = .ok v) := by
  refine ⟨rfl, fun v b => rfl, fun c => ?_⟩
  cases c with
  | malformed => exact ⟨Json.arr [], rfl⟩
  | wellFormed v b => exact ⟨v, rfl⟩

/-! ## Claims about the dispatch -/

/-- C2: invoking the `complete` or `delete` command with an id argument
raises `NameError` (the dispatch references `complete_task` and
`delete_task`, which are never defined); the top-level catch-all reports the
error and the persisted task list is unchanged, with no save. -/
theorem dispatch_complete_delete_nameError (idArg : String) (tasks : List Task) :
    runMain ["todo.py", "complete", idArg] tasks =
      { tasks := tasks, saved := false,
        output := ["❌ Unexpected error occurred: name complete_task is not defined"],
        caught := some (.nameError "complete_task"), exitCode := 0 } ∧
    runMain ["todo.py", "delete", idArg] tasks =
      { tasks := tasks, saved := false,
        output := ["❌ Unexpected error occurred: name delete_task is not defined"],
        caught := some (.nameError "delete_task"), exitCode := 0 } :=
  ⟨rfl, rfl⟩

/-! ## Claims about `add_task` and date validation -/

/-- C6: for every description that strips to the empty string, `add_task`
reports a user error and performs no load and no save; the task list is
unchanged. -/
theorem add_task_empty_description_noop (description : String)
    (deadline : Option String) (tasks : List Task)
    (h : pyStrip description = "") :
    add_task description deadline tasks =
      { tasks := tasks, loaded := false, saved := false,
        output := [addEmptyDescMsg] } := by
  unfold add_task
  rw [if_pos h]

/-- Witness for C6 on a whitespace-only description. -/
theorem add_task_empty_description_noop_witness :
    pyStrip "   " = "" ∧
    add_task "   " none [⟨1, "a", false, none⟩] =
      { tasks := [⟨1, "a", false, none⟩], loaded := false, saved := false,
        output := [addEmptyDescMsg] } :=
  ⟨by decide,
   add_task_empty_description_noop "   " none [⟨1, "a", false, none⟩] (by decide)⟩

/-- C4: for every current task list of length `L`, a description that strips
to a non-empty string and a valid-or-absent deadline, `add_task` appends
exactly one task with id `L + 1`, `completed = false`, the stripped
description and the stripped deadline (or absent), and saves.  With
`tasks = []` this yields exactly one task with id 1. -/
theorem add_task_appends (description : String) (deadline : Option String)
    (tasks : List Task)
    (hd : pyStrip description ≠ "")
    (hdl : strTruthy deadline = false ∨ validate_date (deadline.getD "") = true) :
    add_task description deadline tasks =
      { tasks := tasks ++
          [{ id := (tasks.length : Int) + 1,
             description := pyStrip description,
             completed := false,
             deadline := if strTruthy deadline then some (pyStrip (deadline.getD "")) else none }],
        loaded := true, saved := true,
        output := [addSuccessMsg description deadline] } := by
  have hc : (strTruthy deadline && !validate_date (deadline.getD "")) = false := by
    rcases hdl with h | h
    · simp [h]
    · simp [h]
  unfold add_task
  rw [if_neg hd]
  simp [hc]

/-- Witness for C4: adding to the empty store yields one task with id 1. -/
theorem add_task_appends_witness :
    pyStrip "Buy milk" ≠ "" ∧
    (strTruthy (some "2025-02-01") = false ∨
      validate_date ((some "2025-02-01").getD "") = true) ∧
    add_task "Buy milk" (some "2025-02-01") [] =
      { tasks := [{ id := (([] : List Task).length : Int) + 1,
                    description := pyStrip "Buy milk",
                    completed := false,
                    deadline := if strTruthy (some "2025-02-01") then
                        some (pyStrip ((some "2025-02-01").getD "")) else none }],
        loaded := true, saved := true,
        output := [addSuccessMsg "Buy milk" (some "2025-02-01")] } :=
  ⟨by decide, Or.inr (by decide),
   add_task_appends "Buy milk" (some "2025-02-01") [] (by decide)
     (Or.inr (by decide))⟩

/-- C5: date validation is strict calendar validation of `YYYY-MM-DD`:
`2025-13-01` (invalid month) is rejected and `2025-02-01` accepted (likewise
`2025-02-29` rejected, `2024-02-29` accepted); a present (non-empty)
deadline that fails validation makes `add_task` and `update_deadline` fail
without saving, leaving the task list unchanged (`update_deadline` fails
before even loading). -/
theorem validate_date_strict (d descr : String) (k : Int) (tasks : List Task)
    (hbad : validate_date d = false) (hne : d ≠ "") :
    validate_date "2025-13-01" = false ∧
    validate_date "2025-02-01" = true ∧
    validate_date "2025-02-29" = false ∧
    validate_date "2024-02-29" = true ∧
    (add_task descr (some d) tasks).saved = false ∧
    (add_task descr (some d) tasks).tasks = tasks ∧
    (update_deadline k d tasks).loaded = false ∧
    (update_deadline k d tasks).saved = false ∧
    (update_deadline k d tasks).tasks = tasks := by
  have hT : strTruthy (some d) = true := by simp [strTruthy, hne]
  refine ⟨by decide, by decide, by decide, by decide, ?_, ?_, ?_, ?_, ?_⟩
  · by_cases h : pyStrip descr = "" <;> simp [add_task, h, hT, hbad]
  · by_cases h : pyStrip descr = "" <;> simp [add_task, h, hT, hbad]
  · simp [update_deadline, hbad]
  · simp [update_deadline, hbad]
  · simp [update_deadline, hbad]

/-- Witness for C5 at the invalid month date of the claim. -/
theorem validate_date_strict_witness :
    validate_date "2025-13-01" = false ∧
    "2025-13-01" ≠ "" ∧
    ((add_task "x" (some "2025-13-01") []).saved = false ∧
     (add_task "x" (some "2025-13-01") []).tasks = [] ∧
     (update_deadline 1 "2025-13-01" []).loaded = false ∧
     (update_deadline 1 "2025-13-01" []).saved = false ∧
     (update_deadline 1 "2025-13-01" []).tasks = []) :=
  ⟨by decide, by decide,
   (by
     have h := validate_date_strict "2025-13-01" "x" 1 [] (by decide) (by decide)
     exact ⟨h.2.2.2.2.1, h.2.2.2.2.2.1, h.2.2.2.2.2.2.1, h.2.2.2.2.2.2.2.1,
            h.2.2.2.2.2.2.2.2⟩)⟩


/-! ## Claims about `complete_task` and `update_deadline` -/

/-- A map that fixes every element of a list is the identity on it. -/
theorem list_map_id_on {α : Type} (f : α → α) (l : List α)
    (h : ∀ v ∈ l, f v = v) : l.map f = l := by
  induction l with
  | nil => rfl
  | cons a l ih =>
      simp only [List.map_cons, h a (List.mem_cons_self a l),
        ih (fun v hv => h v (List.mem_cons_of_mem a hv))]

theorem completeScan_not_found (task_id : Int) (tasks : List Task)
    (h : ∀ t ∈ tasks, t.id ≠ task_id) :
    completeScan task_id tasks = (tasks, false, [completeNotFoundMsg]) := by
  induction tasks with
  | nil => rfl
  | cons u ts ih =>
      have hu : ¬(u.id = task_id) := h u (List.mem_cons_self u ts)
      have hts := ih (fun v hv => h v (List.mem_cons_of_mem u hv))
      simp [completeScan, hu, hts]

theorem completeScan_found_completed (task_id : Int) (tasks : List Task)
    (hnd : (tasks.map Task.id).Nodup) (t : Task) (ht : t ∈ tasks)
    (hid : t.id = task_id) (hc : t.completed = true) :
    completeScan task_id tasks = (tasks, false, [alreadyCompletedMsg]) := by
  induction tasks with
  | nil => cases ht
  | cons u ts ih =>
      rw [List.map_cons, List.nodup_cons] at hnd
      rcases List.mem_cons.mp ht with rfl | hmem
      · simp [completeScan, hid, hc]
      · have hu : ¬(u.id = task_id) := by
          intro he
          exact hnd.1 (he ▸ hid ▸ List.mem_map_of_mem Task.id hmem)
        simp [completeScan, hu, ih hnd.2 hmem]

theorem completeScan_found_incomplete (task_id : Int) (tasks : List Task)
    (hnd : (tasks.map Task.id).Nodup) (t : Task) (ht : t ∈ tasks)
    (hid : t.id = task_id) (hc : t.completed = false) :
    completeScan task_id tasks =
      (tasks.map (fun u => if u.id = task_id then { u with completed := true } else u),
        true, [completeSuccessMsg]) := by
  induction tasks with
  | nil => cases ht
  | cons u ts ih =>
      rw [List.map_cons, List.nodup_cons] at hnd
      rcases List.mem_cons.mp ht with rfl | hmem
      · have hmap :
            ts.map (fun v => if v.id = task_id then { v with completed := true } else v) = ts :=
          list_map_id_on _ _ (fun v hv => by
            have hv2 : ¬(v.id = task_id) := by
              intro he
              have hm : v.id ∈ ts.map Task.id := List.mem_map_of_mem Task.id hv
              rw [he, ← hid] at hm
              exact hnd.1 hm
            simp [hv2])
        simp [completeScan, hid, hc, hmap]
      · have hu : ¬(u.id = task_id) := by
          intro he
          exact hnd.1 (he ▸ hid ▸ List.mem_map_of_mem Task.id hmem)
        simp [completeScan, hu, ih hnd.2 hmem]

/-- C3: `complete_task` scans for the id.  Found and already completed:
state unchanged, no save, and a warning distinct from the success message.
Found and incomplete: the `completed` flag of that task is set and the list
is saved.  Not found: warning, no save. -/
theorem complete_task_spec (task_id : Int) (tasks : List Task)
    (hnd : (tasks.map Task.id).Nodup) :
    ((∀ t ∈ tasks, t.id ≠ task_id) →
        complete_task task_id tasks =
          { tasks := tasks, loaded := true, saved := false,
            output := [completeNotFoundMsg] }) ∧
    (∀ t ∈ tasks, t.id = task_id → t.completed = true →
        complete_task task_id tasks =
          { tasks := tasks, loaded := true, saved := false,
            output := [alreadyCompletedMsg] }) ∧
    (∀ t ∈ tasks, t.id = task_id → t.completed = false →
        complete_task task_id tasks =
          { tasks := tasks.map
              (fun u => if u.id = task_id then { u with completed := true } else u),
            loaded := true, saved := true,
            output := [completeSuccessMsg] }) ∧
    alreadyCompletedMsg ≠ completeSuccessMsg := by
  refine ⟨?_, ?_, ?_, by decide⟩
  · intro h
    simp [complete_task, completeScan_not_found task_id tasks h]
  · intro t ht hid hc
    simp [complete_task, completeScan_found_completed task_id tasks hnd t ht hid hc]
  · intro t ht hid hc
    simp [complete_task, completeScan_found_incomplete task_id tasks hnd t ht hid hc]

/-- Witness for C3 on a two-task list: repeat-complete of task 1 is a warned
no-op, first-time complete of task 2 saves with the flag set. -/
theorem complete_task_spec_witness :
    (([⟨1, "a", true, none⟩, ⟨2, "b", false, none⟩] : List Task).map Task.id).Nodup ∧
    complete_task 1 [⟨1, "a", true, none⟩, ⟨2, "b", false, none⟩] =
      { tasks := [⟨1, "a", true, none⟩, ⟨2, "b", false, none⟩],
        loaded := true, saved := false, output := [alreadyCompletedMsg] } ∧
    complete_task 2 [⟨1, "a", true, none⟩, ⟨2, "b", false, none⟩] =
      { tasks := [⟨1, "a", true, none⟩, ⟨2, "b", true, none⟩],
        loaded := true, saved := true, output := [completeSuccessMsg] } := by
  refine ⟨by decide, ?_, ?_⟩
  · exact (complete_task_spec 1 _ (by decide)).2.1 ⟨1, "a", true, none⟩
      (List.mem_cons_self _ _) rfl rfl
  · have h := (complete_task_spec 2 [⟨1, "a", true, none⟩, ⟨2, "b", false, none⟩]
      (by decide)).2.2.1 ⟨2, "b", false, none⟩
      (List.mem_cons_of_mem _ (List.mem_cons_self _ _)) rfl rfl
    rw [h]
    decide

theorem updateScan_not_found (task_id : Int) (d : String) (tasks : List Task)
    (h : ∀ t ∈ tasks, t.id ≠ task_id) :
    updateScan task_id d tasks = (tasks, false, [updateNotFoundMsg task_id]) := by
  induction tasks with
  | nil => rfl
  | cons u ts ih =>
      have hu : ¬(u.id = task_id) := h u (List.mem_cons_self u ts)
      have hts := ih (fun v hv => h v (List.mem_cons_of_mem u hv))
      simp [updateScan, hu, hts]

theorem updateScan_found (task_id : Int) (d : String) (tasks : List Task)
    (hnd : (tasks.map Task.id).Nodup) (t : Task) (ht : t ∈ tasks)
    (hid : t.id = task_id) :
    updateScan task_id d tasks =
      (tasks.map (fun u => if u.id = task_id then { u with deadline := some d } else u),
        true, [updateSuccessMsg task_id d]) := by
  induction tasks with
  | nil => cases ht
  | cons u ts ih =>
      rw [List.map_cons, List.nodup_cons] at hnd
      rcases List.mem_cons.mp ht with rfl | hmem
      · have hmap :
            ts.map (fun v => if v.id = task_id then { v with deadline := some d } else v) = ts :=
          list_map_id_on _ _ (fun v hv => by
            have hv2 : ¬(v.id = task_id) := by
              intro he
              have hm : v.id ∈ ts.map Task.id := List.mem_map_of_mem Task.id hv
              rw [he, ← hid] at hm
              exact hnd.1 hm
            simp [hv2])
        simp [updateScan, hid, hmap]
      · have hu : ¬(u.id = task_id) := by
          intro he
          exact hnd.1 (he ▸ hid ▸ List.mem_map_of_mem Task.id hmem)
        simp [updateScan, hu, ih hnd.2 hmem]

/-- C7: `update_deadline` validates the date first and, on an invalid
format, fails before any load or save; on a valid date it scans for the id,
overwrites the deadline of the match and saves, or reports not-found with no
save. -/
theorem update_deadline_spec (task_id : Int) (d : String) (tasks : List Task)
    (hnd : (tasks.map Task.id).Nodup) :
    (validate_date d = false →
        update_deadline task_id d tasks =
          { tasks := tasks, loaded := false, saved := false,
            output := [invalidDateMsg] }) ∧
    (validate_date d = true → (∀ t ∈ tasks, t.id ≠ task_id) →
        update_deadline task_id d tasks =
          { tasks := tasks, loaded := true, saved := false,
            output := [updateNotFoundMsg task_id] }) ∧
    (validate_date d = true → ∀ t ∈ tasks, t.id = task_id →
        update_deadline task_id d tasks =
          { tasks := tasks.map
              (fun u => if u.id = task_id then { u with deadline := some d } else u),
            loaded := true, saved := true,
            output := [updateSuccessMsg task_id d] }) := by
  refine ⟨?_, ?_, ?_⟩
  · intro hbad
    simp [update_deadline, hbad]
  · intro hok h
    simp [update_deadline, hok, updateScan_not_found task_id d tasks h]
  · intro hok t ht hid
    simp [update_deadline, hok, updateScan_found task_id d tasks hnd t ht hid]

/-- Witness for C7: updating task 1 of a one-task list with a valid date
overwrites its deadline and saves; an absent id is a warned no-save. -/
theorem update_deadline_spec_witness :
    (([⟨1, "a", false, none⟩] : List Task).map Task.id).Nodup ∧
    update_deadline 1 "2025-03-01" [⟨1, "a", false, none⟩] =
      { tasks := [⟨1, "a", false, some "2025-03-01"⟩],
        loaded := true, saved := true,
        output := [updateSuccessMsg 1 "2025-03-01"] } ∧
    update_deadline 2 "2025-03-01" [⟨1, "a", false, none⟩] =
      { tasks := [⟨1, "a", false, none⟩], loaded := true, saved := false,
        output := [updateNotFoundMsg 2] } := by
  refine ⟨by decide, ?_, ?_⟩
  · have h := (update_deadline_spec 1 "2025-03-01" [⟨1, "a", false, none⟩]
      (by decide)).2.2 (by decide) ⟨1, "a", false, none⟩ (List.mem_cons_self _ _) rfl
    rw [h]
    simp
  · exact (update_deadline_spec 2 "2025-03-01" [⟨1, "a", false, none⟩]
      (by decide)).2.1 (by decide) (by decide)


/-! ## Claim about `delete_task`

The data-model invariant of the specification is that ids are the contiguous
range 1..N in sequence order; `canonFromB n l` checks that the ids of `l`
are `n, n+1, ...` in order. -/

def canonFromB (n : Int) : List Task → Bool
  | [] => true
  | t :: ts => (t.id == n) && canonFromB (n + 1) ts

theorem canonFromB_renumberFrom (l : List Task) (n : Int) :
    canonFromB n (renumberFrom n l) = true := by
  induction l generalizing n with
  | nil => rfl
  | cons t ts ih => simp [renumberFrom, canonFromB, ih]

theorem renumberFrom_map_taskData (l : List Task) (n : Int) :
    (renumberFrom n l).map taskData = l.map taskData := by
  induction l generalizing n with
  | nil => rfl
  | cons t ts ih => simp [renumberFrom, taskData, ih]

theorem canonFromB_le (l : List Task) (n : Int) (h : canonFromB n l = true) :
    ∀ t ∈ l, n ≤ t.id := by
  induction l generalizing n with
  | nil => intro t ht; cases ht
  | cons u ts ih =>
      simp only [canonFromB, Bool.and_eq_true, beq_iff_eq] at h
      intro t ht
      rcases List.mem_cons.mp ht with rfl | hmem
      · omega
      · have := ih (n + 1) h.2 t hmem
        omega

theorem renumberFrom_shift (K : Int) (l : List Task) (m : Int)
    (h : canonFromB m l = true) (hK : K < m) :
    (renumberFrom (m - 1) l).map Task.id =
      l.map (fun t => if K < t.id then t.id - 1 else t.id) := by
  induction l generalizing m with
  | nil => rfl
  | cons u ts ih =>
      simp only [canonFromB, Bool.and_eq_true, beq_iff_eq] at h
      obtain ⟨h1, h2⟩ := h
      have hlt : K < u.id := by omega
      have ih2 := ih (m + 1) h2 (by omega)
      rw [show m + 1 - 1 = m from by omega] at ih2
      simp [renumberFrom, hlt, h1, ih2, hK]

theorem filter_ne_cons_of_eq (K : Int) (u : Task) (ts : List Task) (hu : u.id = K) :
    (u :: ts).filter (fun t => t.id ≠ K) = ts.filter (fun t => t.id ≠ K) := by
  rw [List.filter_cons_of_neg]
  simp [hu]

theorem filter_ne_cons_of_ne (K : Int) (u : Task) (ts : List Task) (hu : u.id ≠ K) :
    (u :: ts).filter (fun t => t.id ≠ K) = u :: ts.filter (fun t => t.id ≠ K) := by
  rw [List.filter_cons_of_pos]
  simp [hu]

theorem filter_renumber_ids (K : Int) (l : List Task) (n : Int)
    (h : canonFromB n l = true) (hnK : n ≤ K)
    (hex : ∃ t ∈ l, t.id = K) :
    (renumberFrom n (l.filter (fun t => t.id ≠ K))).map Task.id =
      (l.filter (fun t => t.id ≠ K)).map
        (fun t => if K < t.id then t.id - 1 else t.id) := by
  induction l generalizing n with
  | nil => obtain ⟨t, ht, _⟩ := hex; cases ht
  | cons u ts ih =>
      simp only [canonFromB, Bool.and_eq_true, beq_iff_eq] at h
      obtain ⟨h1, h2⟩ := h
      by_cases hu : u.id = K
      · have hts : ∀ t ∈ ts, t.id ≠ K := by
          intro t ht
          have := canonFromB_le ts (n + 1) h2 t ht
          omega
        have hfil : ts.filter (fun t => t.id ≠ K) = ts := by
          rw [List.filter_eq_self]
          intro a ha
          simp [hts a ha]
        rw [filter_ne_cons_of_eq K u ts hu, hfil]
        have hshift := renumberFrom_shift K ts (n + 1) h2 (by omega)
        rw [show n + 1 - 1 = n from by omega] at hshift
        exact hshift
      · have hexts : ∃ t ∈ ts, t.id = K := by
          obtain ⟨t, ht, htK⟩ := hex
          rcases List.mem_cons.mp ht with rfl | hm
          · exact absurd htK hu
          · exact ⟨t, hm, htK⟩
        have hlt : ¬(K < u.id) := by omega
        have ihts := ih (n + 1) h2 (by omega) hexts
        rw [filter_ne_cons_of_ne K u ts hu]
        simp only [renumberFrom, List.map_cons]
        rw [ihts, if_neg hlt, h1]

theorem filter_length_ne (K : Int) (l : List Task)
    (hex : ∃ t ∈ l, t.id = K) :
    (l.filter (fun t => t.id ≠ K)).length ≠ l.length := by
  induction l with
  | nil => obtain ⟨t, ht, _⟩ := hex; cases ht
  | cons u ts ih =>
      by_cases hu : u.id = K
      · rw [filter_ne_cons_of_eq K u ts hu]
        have hle := List.length_filter_le (fun t : Task => decide (t.id ≠ K)) ts
        simp only [List.length_cons]
        omega
      · obtain ⟨t, ht, htK⟩ := hex
        rcases List.mem_cons.mp ht with rfl | hm
        · exact absurd htK hu
        · have hne := ih ⟨t, hm, htK⟩
          rw [filter_ne_cons_of_ne K u ts hu]
          simp only [List.length_cons]
          omega

/-- C1: starting from the 1..N data-model invariant, a successful
`delete_task K` saves a list that keeps the remaining tasks (all fields but
the id, in their original relative order) and reassigns their ids to the
contiguous range 1..N: every remaining task with prior id above `K` has its
id decreased by one, every other remaining task keeps its id.  If no task
matches `K`, not-found is reported and no save is performed. -/
theorem delete_task_renumbers (K : Int) (tasks : List Task)
    (hcanon : canonFromB 1 tasks = true) :
    ((∃ t ∈ tasks, t.id = K) →
        (delete_task K tasks).saved = true ∧
        (delete_task K tasks).tasks.map taskData =
          (tasks.filter (fun t => t.id ≠ K)).map taskData ∧
        canonFromB 1 (delete_task K tasks).tasks = true ∧
        (delete_task K tasks).tasks.map Task.id =
          (tasks.filter (fun t => t.id ≠ K)).map
            (fun t => if K < t.id then t.id - 1 else t.id)) ∧
    ((∀ t ∈ tasks, t.id ≠ K) →
        (delete_task K tasks).saved = false ∧
        (delete_task K tasks).tasks = tasks ∧
        (delete_task K tasks).output = [deleteNotFoundMsg]) := by
  constructor
  · intro hex
    have hne := filter_length_ne K tasks hex
    have h1K : 1 ≤ K := by
      obtain ⟨t, ht, htK⟩ := hex
      have := canonFromB_le tasks 1 hcanon t ht
      omega
    have hmain := filter_renumber_ids K tasks 1 hcanon h1K hex
    have hdata := renumberFrom_map_taskData (tasks.filter (fun t => t.id ≠ K)) 1
    have hcan := canonFromB_renumberFrom (tasks.filter (fun t => t.id ≠ K)) 1
    unfold delete_task
    rw [if_neg hne]
    exact ⟨rfl, hdata, hcan, hmain⟩
  · intro hall
    have hfil : tasks.filter (fun t => t.id ≠ K) = tasks := by
      rw [List.filter_eq_self]
      intro a ha
      simp [hall a ha]
    have hlen : (tasks.filter (fun t => t.id ≠ K)).length = tasks.length := by
      rw [hfil]
    unfold delete_task
    rw [if_pos hlen]
    exact ⟨rfl, rfl, rfl⟩

/-- Witness for C1: deleting id 2 from tasks 1,2,3 keeps tasks a and c in
order and renumbers their ids to 1,2. -/
theorem delete_task_renumbers_witness :
    canonFromB 1
      ([⟨1, "a", false, none⟩, ⟨2, "b", false, none⟩, ⟨3, "c", false, none⟩] : List Task) = true ∧
    ((delete_task 2
        [⟨1, "a", false, none⟩, ⟨2, "b", false, none⟩, ⟨3, "c", false, none⟩]).saved = true ∧
     (delete_task 2
        [⟨1, "a", false, none⟩, ⟨2, "b", false, none⟩, ⟨3, "c", false, none⟩]).tasks.map taskData =
       (([⟨1, "a", false, none⟩, ⟨2, "b", false, none⟩, ⟨3, "c", false, none⟩] : List Task).filter
           (fun t => t.id ≠ 2)).map taskData ∧
     canonFromB 1
       (delete_task 2
         [⟨1, "a", false, none⟩, ⟨2, "b", false, none⟩, ⟨3, "c", false, none⟩]).tasks = true ∧
     (delete_task 2
        [⟨1, "a", false, none⟩, ⟨2, "b", false, none⟩, ⟨3, "c", false, none⟩]).tasks.map Task.id =
       (([⟨1, "a", false, none⟩, ⟨2, "b", false, none⟩, ⟨3, "c", false, none⟩] : List Task).filter
           (fun t => t.id ≠ 2)).map (fun t => if 2 < t.id then t.id - 1 else t.id)) :=
  ⟨by decide,
   (delete_task_renumbers 2
       [⟨1, "a", false, none⟩, ⟨2, "b", false, none⟩, ⟨3, "c", false, none⟩]
       (by decide)).1 ⟨⟨2, "b", false, none⟩, by decide, rfl⟩⟩

end Todo
